import Mathlib

/-!
Verification development for the water-distribution simulator backend.

The definitions below are a shallow embedding of the Python sources:
  * `backend/services/hydraulic.py`  (class `HydraulicModel`)
  * `backend/services/simulator.py`  (class `DataSimulator`, the fields and
    methods relevant to leak / demand-spike state)
  * `backend/services/anomaly.py`    (class `AnomalyDetector`)

Python floats are modelled as exact rationals (`ℚ`) for the hydraulic code,
whose arithmetic is purely rational, and as reals (`ℝ`) for the anomaly
scorer, which uses square roots and a discrete Fourier transform.
Python dicts are modelled as insertion-ordered association lists.
-/

/-- Model of a Python `dict` with string keys: an insertion-ordered
association list; lookup returns the first (authoritative) binding. -/
abbrev Dict (α : Type) : Type := List (String × α)

/-- `d.get(key)` returning `none` when absent. -/
def dfind {α : Type} : Dict α → String → Option α
  | [], _ => none
  | (k, v) :: d, key => if k = key then some v else dfind d key

/-- `d.get(key, dflt)`. -/
def dget {α : Type} (d : Dict α) (key : String) (dflt : α) : α :=
  (dfind d key).getD dflt

/-- `key in d`. -/
def dmem {α : Type} (d : Dict α) (key : String) : Bool :=
  (dfind d key).isSome

/-- `d[key] = v`: overwrite the existing binding in place, else append. -/
def dset {α : Type} : Dict α → String → α → Dict α
  | [], key, v => [(key, v)]
  | (k, w) :: d, key, v => if k = key then (k, v) :: d else (k, w) :: dset d key v

/-- State of `HydraulicModel` (hydraulic.py, `__init__`): the `_loaded` flag,
baseline pressure/flow dicts, node list, link list `(id, source, target)`,
active leak dict, modified-pressure snapshot, and the lazily built
undirected connectivity graph. -/
structure HydraulicModel where
  loaded : Bool
  baseline_pressure : Dict ℚ
  baseline_flow : Dict ℚ
  nodes : List String
  links : List (String × String × String)
  active_leaks : Dict ℚ
  modified_pressures : Dict ℚ
  connectivity_graph : Dict (List String)
deriving DecidableEq

/-- `self._connectivity_graph.get(node, [])`. -/
def graphGet (g : Dict (List String)) (node : String) : List String :=
  dget g node []

/-- `HydraulicModel._build_connectivity_graph`: start from
`{node: [] for node in self._nodes}`, then for every link whose two
endpoints are both keys, append each endpoint to the other's adjacency
list (undirected). -/
def buildConnectivityGraph (m : HydraulicModel) : Dict (List String) :=
  m.links.foldl
    (fun g l =>
      if dmem g l.2.1 && dmem g l.2.2 then
        let g1 := dset g l.2.1 (graphGet g l.2.1 ++ [l.2.2])
        dset g1 l.2.2 (graphGet g1 l.2.2 ++ [l.2.1])
      else g)
    (m.nodes.map fun n => (n, []))

/-- The connectivity graph `apply_leak` works with: the cached one, or a
freshly built one when the cache is empty (`if not self._connectivity_graph`). -/
def leakGraph (m : HydraulicModel) : Dict (List String) :=
  if m.connectivity_graph.isEmpty then buildConnectivityGraph m else m.connectivity_graph

/-- Keys of the graph, for the BFS termination measure. -/
def gKeys (g : Dict (List String)) : Finset String :=
  (g.map Prod.fst).toFinset

/-- Total length of all adjacency lists, for the BFS termination measure. -/
def adjSum (g : Dict (List String)) : ℕ :=
  (g.map fun p => p.2.length).sum

theorem graphGet_length_le (g : Dict (List String)) (n : String) :
    (graphGet g n).length ≤ adjSum g := by
  induction g with
  | nil => simp [graphGet, dget, dfind, adjSum]
  | cons p d ih =>
    simp only [graphGet, dget, dfind, adjSum, List.map_cons, List.sum_cons]
    by_cases h : p.1 = n
    · simp [h]
    · simp only [if_neg h]
      exact le_trans (by simpa [graphGet, dget, adjSum] using ih) (Nat.le_add_left _ _)

theorem dfind_eq_none_of_not_key {α : Type} (g : Dict α) (n : String)
    (h : n ∉ g.map Prod.fst) : dfind g n = none := by
  induction g with
  | nil => rfl
  | cons p d ih =>
    simp only [List.map_cons, List.mem_cons] at h
    push_neg at h
    simp only [dfind]
    rw [if_neg (fun he => h.1 he.symm)]
    exact ih h.2

/-- `HydraulicModel._calculate_leak_pressure_drops`, inner BFS loop.
`queue` holds `(node, distance_from_leak)` pairs, `visited` is the visited
set, `press` the pressure snapshot being written.  A popped unvisited node
receives pressure `max 10 (old - drop)` where `drop` is `severity * 25`
at distance 0 and `severity * max 5 (20 / (distance + 1))` further out,
then its not-yet-visited neighbours are enqueued one hop further. -/
def bfsAux (g : Dict (List String)) (sev : ℚ) :
    List (String × ℕ) → List String → Dict ℚ → Dict ℚ
  | [], _, press => press
  | (node, dist) :: rest, visited, press =>
    if node ∈ visited then
      bfsAux g sev rest visited press
    else
      bfsAux g sev
        (rest ++ ((graphGet g node).filter (fun nb => nb ∉ node :: visited)).map
          (fun nb => (nb, dist + 1)))
        (node :: visited)
        (dset press node
          (max 10 (dget press node 52 -
            (if dist = 0 then sev * 25 else sev * max 5 (20 / ((dist : ℚ) + 1))))))
termination_by queue visited _ =>
  ((gKeys g).filter (fun x => x ∉ visited)).card * (1 + adjSum g) + queue.length
decreasing_by
  · simp only [List.length_cons]
    omega
  · rename_i hnv
    simp only [List.length_append, List.length_cons, List.length_map]
    by_cases hk : node ∈ gKeys g
    · have hfilt : (gKeys g).filter (fun x => x ∉ node :: visited)
          = ((gKeys g).filter (fun x => x ∉ visited)).erase node := by
        ext a
        simp only [Finset.mem_filter, Finset.mem_erase, List.mem_cons]
        tauto
      have hmem : node ∈ (gKeys g).filter (fun x => x ∉ visited) :=
        Finset.mem_filter.mpr ⟨hk, hnv⟩
      rw [hfilt, Finset.card_erase_of_mem hmem]
      have hadj : ((graphGet g node).filter (fun nb => nb ∉ node :: visited)).length
          ≤ adjSum g :=
        le_trans ((graphGet g node).length_filter_le _) (graphGet_length_le g node)
      have hpos : 0 < ((gKeys g).filter (fun x => x ∉ visited)).card :=
        Finset.card_pos.mpr ⟨node, hmem⟩
      obtain ⟨c, hc⟩ : ∃ c, ((gKeys g).filter (fun x => x ∉ visited)).card = c + 1 :=
        ⟨_, (Nat.succ_pred_eq_of_pos hpos).symm⟩
      rw [hc]
      simp only [Nat.add_sub_cancel, Nat.succ_mul]
      set K := c * (1 + adjSum g)
      omega
    · have hget : graphGet g node = [] := by
        have : dfind g node = none := by
          apply dfind_eq_none_of_not_key
          intro hmem
          exact hk (List.mem_toFinset.mpr hmem)
        simp [graphGet, dget, this]
      have hsub : (gKeys g).filter (fun x => x ∉ node :: visited)
          ⊆ (gKeys g).filter (fun x => x ∉ visited) := by
        intro a ha
        simp only [Finset.mem_filter, List.mem_cons] at ha ⊢
        tauto
      have hcard := Finset.card_le_card hsub
      simp only [hget, List.filter_nil, List.map_nil, List.length_nil]
      have := Nat.mul_le_mul_right (1 + adjSum g) hcard
      omega

/-- `HydraulicModel.apply_leak`, pipe-endpoint lookup: first link whose id
matches (the Python loop breaks at the first hit), `none` when the id is
unknown. -/
def findPipe : List (String × String × String) → String → Option (String × String)
  | [], _ => none
  | l :: ls, pid => if l.1 = pid then some (l.2.1, l.2.2) else findPipe ls pid

/-- `HydraulicModel._get_pipe_leak_factor`: `severity * 0.4` when the pipe
has an active leak, else `0`. -/
def getPipeLeakFactor (leaks : Dict ℚ) (pipe_id : String) : ℚ :=
  match dfind leaks pipe_id with
  | some severity => severity * 0.4
  | none => 0

/-- Flow multiplier of `HydraulicModel._calculate_flow_changes` for one link:
`max 0.3 (pressure_factor * (1 - leak_factor))` with
`pressure_factor = avg(source_pressure, target_pressure) / 52`. -/
def flowFactor (mp leaks : Dict ℚ) (lid src tgt : String) : ℚ :=
  max 0.3 ((dget mp src 52 + dget mp tgt 52) / 2 / 52 * (1 - getPipeLeakFactor leaks lid))

/-- The per-link loop of `_calculate_flow_changes`: each link's stored
baseline flow is overwritten in place by `old * flowFactor`. -/
def calcFlowsFold (mp leaks : Dict ℚ) (links : List (String × String × String))
    (bf : Dict ℚ) : Dict ℚ :=
  links.foldl (fun bf l => dset bf l.1 (dget bf l.1 60 * flowFactor mp leaks l.1 l.2.1 l.2.2)) bf

/-- `HydraulicModel._calculate_flow_changes`. -/
def calculateFlowChanges (m : HydraulicModel) : HydraulicModel :=
  { m with baseline_flow :=
      calcFlowsFold m.modified_pressures m.active_leaks m.links m.baseline_flow }

/-- `HydraulicModel.apply_leak`: store the (unclamped) severity, build the
connectivity graph if empty, look the pipe up; on an unknown pipe return
with only the leak map (and possibly the graph cache) changed; otherwise
reset the snapshot to baseline, run the BFS pressure pass from both
endpoints, then recompute all flows.  (The Python code stores the leak and
builds the graph before the lookup; the lookup reads only `_links`, so
doing it first is state-equivalent.) -/
def applyLeak (m : HydraulicModel) (pipe_id : String) (severity : ℚ) : HydraulicModel :=
  match findPipe m.links pipe_id with
  | none =>
      { m with active_leaks := dset m.active_leaks pipe_id severity,
               connectivity_graph := leakGraph m }
  | some (s, t) =>
      calculateFlowChanges
        { m with active_leaks := dset m.active_leaks pipe_id severity,
                 connectivity_graph := leakGraph m,
                 modified_pressures :=
                   bfsAux (leakGraph m) severity [(s, 0), (t, 0)] [] m.baseline_pressure }

/-- `HydraulicModel.apply_demand_spike`: replace the whole snapshot with
`baseline * max 0.7 (1 - 0.05 * (multiplier - 1))` per node; the duration
argument is unused by the hydraulic model (no clamping happens here). -/
def applyDemandSpike (m : HydraulicModel) (multiplier : ℚ) (_duration_s : ℤ) : HydraulicModel :=
  { m with modified_pressures :=
      m.baseline_pressure.map fun p => (p.1, p.2 * max 0.7 (1 - 0.05 * (multiplier - 1))) }

/-- `HydraulicModel.clear_leaks`: empty the leak map and reset the snapshot
to a copy of the baseline map; flows are left untouched. -/
def clearLeaks (m : HydraulicModel) : HydraulicModel :=
  { m with active_leaks := [], modified_pressures := m.baseline_pressure }

/-- `HydraulicModel.get_modified_pressures`: the snapshot when non-empty,
else the baseline map. -/
def getModifiedPressures (m : HydraulicModel) : Dict ℚ :=
  if m.modified_pressures.isEmpty then m.baseline_pressure else m.modified_pressures

/-- `HydraulicModel.get_active_leaks`. -/
def getActiveLeaks (m : HydraulicModel) : Dict ℚ :=
  m.active_leaks

/-- `HydraulicModel.is_ready`. -/
def isReady (m : HydraulicModel) : Bool :=
  m.loaded

/-- Leak/demand state of `DataSimulator` (simulator.py): `_leak`,
`_demand_multiplier`, `_demand_until_ts`. -/
structure DataSimulator where
  leak : Option (String × ℚ)
  demand_multiplier : ℚ
  demand_until_ts : ℤ
deriving DecidableEq

/-- `DataSimulator.__init__` leak/demand fields. -/
def simInit : DataSimulator :=
  { leak := none, demand_multiplier := 1, demand_until_ts := 0 }

/-- `DataSimulator.trigger_leak`: stores the pipe id with the severity
clamped into `[0, 1]` via `max(0.0, min(severity, 1.0))`. -/
def triggerLeak (sim : DataSimulator) (pipe_id : String) (severity : ℚ) : DataSimulator :=
  { sim with leak := some (pipe_id, max 0 (min severity 1)) }

/-- `DataSimulator.trigger_demand_spike`: multiplier clamped to `≥ 0.1`,
expiry set to `now + max 1 duration_s`. -/
def triggerDemandSpike (sim : DataSimulator) (multiplier : ℚ) (duration_s now : ℤ) :
    DataSimulator :=
  { sim with demand_multiplier := max 0.1 multiplier,
             demand_until_ts := now + max 1 duration_s }

theorem dfind_dset_self {α : Type} (d : Dict α) (k : String) (v : α) :
    dfind (dset d k v) k = some v := by
  induction d with
  | nil => simp [dset, dfind]
  | cons p d ih =>
    obtain ⟨pk, pv⟩ := p
    by_cases h : pk = k
    · simp [dset, dfind, h]
    · simpa [dset, dfind, h] using ih

theorem dfind_dset_ne {α : Type} (d : Dict α) (k k' : String) (v : α) (h : k' ≠ k) :
    dfind (dset d k v) k' = dfind d k' := by
  induction d with
  | nil => simp [dset, dfind, Ne.symm h]
  | cons p d ih =>
    obtain ⟨pk, pv⟩ := p
    by_cases hp : pk = k
    · simp [dset, dfind, hp, Ne.symm h]
    · simp only [dset, if_neg hp, dfind, ih]

theorem dget_dset_self {α : Type} (d : Dict α) (k : String) (v dflt : α) :
    dget (dset d k v) k dflt = v := by
  simp [dget, dfind_dset_self]

theorem dget_dset_ne {α : Type} (d : Dict α) (k k' : String) (v : α) (dflt : α)
    (h : k' ≠ k) : dget (dset d k v) k' dflt = dget d k' dflt := by
  simp [dget, dfind_dset_ne d k k' v h]

theorem mem_dset {α : Type} (d : Dict α) (k : String) (v : α) :
    ∀ q ∈ dset d k v, q = (k, v) ∨ q ∈ d := by
  induction d with
  | nil => simp [dset]
  | cons p d ih =>
    obtain ⟨pk, pv⟩ := p
    by_cases h : pk = k
    · subst h
      intro q hq
      simp only [dset, if_pos rfl] at hq
      rcases List.mem_cons.mp hq with h1 | h1
      · exact Or.inl h1
      · exact Or.inr (List.mem_cons_of_mem _ h1)
    · intro q hq
      simp only [dset, if_neg h] at hq
      rcases List.mem_cons.mp hq with h1 | h1
      · exact Or.inr (h1 ▸ List.mem_cons_self _ _)
      · rcases ih q h1 with h2 | h2
        · exact Or.inl h2
        · exact Or.inr (List.mem_cons_of_mem _ h2)

theorem dset_forall {α : Type} {P : String × α → Prop} (d : Dict α) (k : String) (v : α)
    (hd : ∀ q ∈ d, P q) (hv : P (k, v)) : ∀ q ∈ dset d k v, P q := by
  intro q hq
  rcases mem_dset d k v q hq with h1 | h1
  · exact h1 ▸ hv
  · exact hd q h1

theorem dfind_map_value {α β : Type} (d : Dict α) (f : α → β) (n : String) :
    dfind (d.map fun p => (p.1, f p.2)) n = (dfind d n).map f := by
  induction d with
  | nil => simp [dfind]
  | cons p d ih =>
    obtain ⟨pk, pv⟩ := p
    by_cases h : pk = n
    · simp [dfind, h]
    · simpa [dfind, h] using ih

theorem calcFlowsFold_cons (mp leaks : Dict ℚ) (l : String × String × String)
    (ls : List (String × String × String)) (bf : Dict ℚ) :
    calcFlowsFold mp leaks (l :: ls) bf
      = calcFlowsFold mp leaks ls
          (dset bf l.1 (dget bf l.1 60 * flowFactor mp leaks l.1 l.2.1 l.2.2)) := rfl

theorem calcFlowsFold_not_key (mp leaks : Dict ℚ) (links : List (String × String × String))
    (bf : Dict ℚ) (k : String) (h : k ∉ links.map fun l => l.1) :
    dget (calcFlowsFold mp leaks links bf) k 60 = dget bf k 60 := by
  induction links generalizing bf with
  | nil => rfl
  | cons l ls ih =>
    simp only [List.map_cons, List.mem_cons] at h
    push_neg at h
    rw [calcFlowsFold_cons, ih _ h.2, dget_dset_ne _ _ _ _ _ h.1]

/-- Per-link characterisation of `_calculate_flow_changes` when link ids are
pairwise distinct: each link's stored flow after the pass equals its stored
flow before the pass times `flowFactor`. -/
theorem calcFlowsFold_spec (mp leaks : Dict ℚ) (links : List (String × String × String))
    (bf : Dict ℚ) (hnd : (links.map fun l => l.1).Nodup) :
    ∀ l ∈ links, dget (calcFlowsFold mp leaks links bf) l.1 60
      = dget bf l.1 60 * flowFactor mp leaks l.1 l.2.1 l.2.2 := by
  induction links generalizing bf with
  | nil => intro l hl; cases hl
  | cons a as ih =>
    simp only [List.map_cons, List.nodup_cons] at hnd
    intro l hl
    rcases List.mem_cons.mp hl with rfl | hl
    · rw [calcFlowsFold_cons, calcFlowsFold_not_key _ _ _ _ _ hnd.1, dget_dset_self]
    · have hne : l.1 ≠ a.1 := fun he => hnd.1 (he ▸ List.mem_map_of_mem (fun l => l.1) hl)
      rw [calcFlowsFold_cons, ih _ hnd.2 l hl, dget_dset_ne _ _ _ _ _ hne]

/-- Reachability in the undirected connectivity graph: reflexive-transitive
closure of "appears in the adjacency list". -/
def reachable (g : Dict (List String)) (a b : String) : Prop :=
  Relation.ReflTransGen (fun x y => y ∈ graphGet g x) a b

/-- A set of nodes that contains a start node and is closed under adjacency
contains everything reachable from that start node. -/
theorem reachable_mem_closed (g : Dict (List String)) (S : List String)
    (hcl : ∀ a ∈ S, ∀ b ∈ graphGet g a, b ∈ S) (a : String) (ha : a ∈ S)
    (x : String) (hx : reachable g a x) : x ∈ S := by
  induction hx with
  | refl => exact ha
  | tail _ hbc ih => exact hcl _ ih _ hbc

/-- The BFS pressure pass writes only nodes satisfying any
adjacency-closed predicate that holds of every queued node: every other
node keeps exactly the binding it had in the incoming snapshot. -/
theorem bfsAux_frame (g : Dict (List String)) (sev : ℚ) (R : String → Prop)
    (hcl : ∀ a, R a → ∀ b ∈ graphGet g a, R b) :
    ∀ (queue : List (String × ℕ)) (visited : List String) (press : Dict ℚ),
      (∀ q ∈ queue, R q.1) →
      ∀ n, ¬ R n → dfind (bfsAux g sev queue visited press) n = dfind press n := by
  intro queue visited press
  induction queue, visited, press using bfsAux.induct g sev with
  | case1 visited press =>
    intro _ n _
    simp [bfsAux]
  | case2 node dist rest visited press hv ih =>
    intro hq n hn
    rw [bfsAux, if_pos hv]
    exact ih (fun q hq2 => hq q (List.mem_cons_of_mem _ hq2)) n hn
  | case3 node dist rest visited press hv ih =>
    intro hq n hn
    have hRnode : R node := hq (node, dist) (List.mem_cons_self _ _)
    rw [bfsAux, if_neg hv]
    have hqueue : ∀ q ∈ rest ++ ((graphGet g node).filter
        (fun nb => nb ∉ node :: visited)).map (fun nb => (nb, dist + 1)), R q.1 := by
      intro q hq2
      rcases List.mem_append.mp hq2 with h1 | h1
      · exact hq q (List.mem_cons_of_mem _ h1)
      · obtain ⟨nb, hnb, rfl⟩ := List.mem_map.mp h1
        exact hcl node hRnode nb (List.mem_of_mem_filter hnb)
    exact (ih hqueue n hn).trans
      (dfind_dset_ne _ _ _ _ (fun he => hn (by rw [he]; exact hRnode)))

/-- The BFS pressure pass writes only values of the form `max 10 _`, so it
preserves the invariant "every binding in the snapshot is at least 10". -/
theorem bfsAux_ge_ten (g : Dict (List String)) (sev : ℚ) :
    ∀ (queue : List (String × ℕ)) (visited : List String) (press : Dict ℚ),
      (∀ q ∈ press, (10 : ℚ) ≤ q.2) →
      ∀ q ∈ bfsAux g sev queue visited press, (10 : ℚ) ≤ q.2 := by
  intro queue visited press
  induction queue, visited, press using bfsAux.induct g sev with
  | case1 visited press =>
    intro hp
    simpa [bfsAux] using hp
  | case2 node dist rest visited press hv ih =>
    intro hp
    rw [bfsAux, if_pos hv]
    exact ih hp
  | case3 node dist rest visited press hv ih =>
    intro hp
    rw [bfsAux, if_neg hv]
    exact ih (dset_forall press node _ hp (le_max_left _ _))

/-- Python `str.strip()`: remove leading and trailing whitespace
(modelled on the character list of the line). -/
def pyStrip (l : List Char) : List Char :=
  ((l.dropWhile Char.isWhitespace).reverse.dropWhile Char.isWhitespace).reverse

/-- Helper for Python `str.split()`: split on runs of whitespace,
dropping empty pieces.  `acc` holds the current token, reversed. -/
def splitWsAux : List Char → List Char → List String
  | [], acc => if acc = [] then [] else [String.mk acc.reverse]
  | c :: cs, acc =>
    if c.isWhitespace then
      if acc = [] then splitWsAux cs [] else String.mk acc.reverse :: splitWsAux cs []
    else
      splitWsAux cs (c :: acc)

/-- Python `str.split()` with no argument. -/
def pySplitWs (l : List Char) : List String :=
  splitWsAux l []

/-- Python `line.strip("[]")`: remove leading and trailing `[` / `]`. -/
def stripBrackets (l : List Char) : List Char :=
  ((l.dropWhile fun c => c == '[' || c == ']').reverse.dropWhile
    fun c => c == '[' || c == ']').reverse

/-- Python `.upper()` (ASCII section names). -/
def toUpperStr (l : List Char) : String :=
  String.mk (l.map Char.toUpper)

/-- The line loop of `HydraulicModel._parse_inp_connectivity`: skip blank
and `;` comment lines, switch sections on `[...]` headers, take the first
token of node-section lines and the first three tokens of link-section
lines (skipping link lines with fewer than 3 tokens). -/
def parseLines : List String → Option String → List String × List (String × String × String)
  | [], _ => ([], [])
  | raw :: rest, sect =>
    let line := pyStrip raw.toList
    if line = [] then parseLines rest sect
    else if line.head? = some ';' then parseLines rest sect
    else if line.head? = some '[' ∧ line.getLast? = some ']' then
      parseLines rest (some (toUpperStr (stripBrackets line)))
    else
      match sect with
      | some s =>
        if s = "JUNCTIONS" ∨ s = "RESERVOIRS" ∨ s = "TANKS" then
          match pySplitWs line with
          | [] => parseLines rest sect
          | p :: _ =>
            ((parseLines rest sect).1.cons p, (parseLines rest sect).2)
        else if s = "PIPES" ∨ s = "PUMPS" ∨ s = "VALVES" then
          match pySplitWs line with
          | lid :: src :: tgt :: _ =>
            ((parseLines rest sect).1, (parseLines rest sect).2.cons (lid, src, tgt))
          | _ => parseLines rest sect
        else parseLines rest sect
      | none => parseLines rest sect

/-- `list(dict.fromkeys(nodes))`: deduplicate preserving first-seen order. -/
def dedupKeepFirst (xs : List String) : List String :=
  xs.foldl (fun acc x => if x ∈ acc then acc else acc ++ [x]) []

/-- `HydraulicModel._parse_inp_connectivity` on the readable lines of the
file (`none` models a file whose open/read raises, which the method
swallows, leaving the empty node and link lists). -/
def parseInp (inp : Option (List String)) : List String × List (String × String × String) :=
  match inp with
  | none => ([], [])
  | some lines => (dedupKeepFirst (parseLines lines none).1, (parseLines lines none).2)

/-- `HydraulicModel.load` on a fresh model.  `wntr` is the outcome of the
optional external-solver step (third-party code): `some (bp, bf)` when it
produced baseline pressures/flows, `none` when it raised and the except
branch reset both maps to `{}` (a fresh model's run with zero result rows
leaves the same empty maps).  Connectivity is always parsed, missing node
baselines are seeded with 52.0, and `_loaded` is set. -/
def hydLoad (wntr : Option (Dict ℚ × Dict ℚ)) (inp : Option (List String)) : HydraulicModel :=
  { loaded := true
    baseline_pressure :=
      (parseInp inp).1.foldl (fun b n => if dmem b n then b else dset b n 52)
        ((wntr.map Prod.fst).getD [])
    baseline_flow := (wntr.map Prod.snd).getD []
    nodes := (parseInp inp).1
    links := (parseInp inp).2
    active_leaks := []
    modified_pressures := []
    connectivity_graph := [] }

/-- State of `AnomalyDetector` (anomaly.py): the window size and the two
fixed-capacity sample buffers. -/
structure AnomalyDetector where
  window_size : ℕ
  pressure_buf : List ℝ
  acoustic_buf : List ℝ

/-- `AnomalyDetector(window_size=30)`. -/
def anomalyInit : AnomalyDetector :=
  { window_size := 30, pressure_buf := [], acoustic_buf := [] }

/-- `deque(maxlen=w).append(x)`: append on the right, evicting from the
left whenever the capacity `w ≥ 1` would be exceeded. -/
def dequePush (w : ℕ) (buf : List ℝ) (x : ℝ) : List ℝ :=
  if buf.length < w then buf ++ [x] else buf.drop (buf.length + 1 - w) ++ [x]

/-- `numpy mean`. -/
noncomputable def npMean (xs : List ℝ) : ℝ :=
  xs.sum / xs.length

/-- `numpy std(ddof=1)`: Bessel-corrected sample standard deviation. -/
noncomputable def npStd1 (xs : List ℝ) : ℝ :=
  Real.sqrt ((xs.map fun x => (x - npMean xs) ^ 2).sum / (xs.length - 1))

/-- Bin `k` of `np.fft.rfft y`: `∑ j, y_j · exp(-2πi·j·k/n)`. -/
noncomputable def dftBin (y : List ℝ) (k : ℕ) : ℂ :=
  ∑ j ∈ Finset.range y.length,
    (y.getD j 0 : ℂ) * Complex.exp (-(2 * Real.pi * Complex.I * j * k) / y.length)

/-- `power[1:].sum()` of anomaly.py: squared magnitudes of the rfft of the
mean-centred window, summed over all bins except DC (rfft of a length-`n`
signal has bins `0 .. n/2`). -/
noncomputable def spectralEnergy (xs : List ℝ) : ℝ :=
  ∑ k ∈ Finset.Icc 1 (xs.length / 2),
    Complex.abs (dftBin (xs.map fun x => x - npMean xs) k) ^ 2

/-- The z branch of `AnomalyDetector.score` on the post-append pressure
buffer: `abs((pressure - mu) / sigma)` with the `size > 1` and
`sigma <= 1e-6` guards, or `0` below 5 samples. -/
noncomputable def zScoreRaw (pbuf : List ℝ) (pressure : ℝ) : ℝ :=
  if 5 ≤ pbuf.length then
    let sigma0 := if 1 < pbuf.length then npStd1 pbuf else 1
    let sigma := if sigma0 ≤ 1e-6 then 1 else sigma0
    |(pressure - npMean pbuf) / sigma|
  else 0

/-- The spectral branch of `AnomalyDetector.score` on the post-append
acoustic buffer: `0` below 8 samples. -/
noncomputable def fftEnergyOf (abuf : List ℝ) : ℝ :=
  if 8 ≤ abuf.length then spectralEnergy abuf else 0

open Classical in
/-- Python `round(x)` on a real midpoint-aware model: round half to even. -/
noncomputable def pyRoundInt (x : ℝ) : ℤ :=
  if x - ⌊x⌋ = 1 / 2 then (if Even ⌊x⌋ then ⌊x⌋ else ⌊x⌋ + 1) else round x

/-- Python `round(x, 3)`. -/
noncomputable def round3 (x : ℝ) : ℝ :=
  (pyRoundInt (1000 * x) : ℝ) / 1000

/-- `AnomalyDetector.score`: append the two samples, form the two
normalized indicators (each clamped at 1), fuse them `0.6/0.4`, round to
3 digits.  Returns the updated detector and the score. -/
noncomputable def score (det : AnomalyDetector) (sensors : Dict ℝ) : AnomalyDetector × ℝ :=
  let pressure := dget sensors "P1" 0
  let acoustic := dget sensors "A1" 0
  let pbuf := dequePush det.window_size det.pressure_buf pressure
  let abuf := dequePush det.window_size det.acoustic_buf acoustic
  let z_norm := min 1 (zScoreRaw pbuf pressure / 3)
  let ac_norm := min 1 (fftEnergyOf abuf / (fftEnergyOf abuf + 5))
  ({ det with pressure_buf := pbuf, acoustic_buf := abuf },
    round3 (0.6 * z_norm + 0.4 * ac_norm))

theorem zScoreRaw_nonneg (pbuf : List ℝ) (pressure : ℝ) : 0 ≤ zScoreRaw pbuf pressure := by
  unfold zScoreRaw
  split
  · exact abs_nonneg _
  · exact le_refl 0

theorem fftEnergyOf_nonneg (abuf : List ℝ) : 0 ≤ fftEnergyOf abuf := by
  unfold fftEnergyOf
  split
  · exact Finset.sum_nonneg fun k _ => pow_nonneg (AbsoluteValue.nonneg Complex.abs _) 2
  · exact le_refl 0

theorem pyRoundInt_bounds (x : ℝ) (h0 : 0 ≤ x) (h1 : x ≤ 1000) :
    0 ≤ pyRoundInt x ∧ pyRoundInt x ≤ 1000 := by
  unfold pyRoundInt
  have hfl0 : (0 : ℤ) ≤ ⌊x⌋ := Int.floor_nonneg.mpr h0
  split
  · rename_i htie
    have hlt : (⌊x⌋ : ℝ) < 1000 := by
      have : (⌊x⌋ : ℝ) = x - 1 / 2 := by linarith [htie]
      rw [this]
      linarith
    have hle : ⌊x⌋ ≤ 999 := by
      have := Int.lt_iff_add_one_le.mp (by exact_mod_cast hlt)
      omega
    split
    · exact ⟨hfl0, by omega⟩
    · exact ⟨by omega, by omega⟩
  · constructor
    · rw [round_eq]
      exact Int.floor_nonneg.mpr (by linarith)
    · rw [round_eq]
      have : x + 1 / 2 < 1001 := by linarith
      have h2 : (⌊x + 1 / 2⌋ : ℝ) ≤ x + 1 / 2 := Int.floor_le _
      have : (⌊x + 1 / 2⌋ : ℝ) < 1001 := lt_of_le_of_lt h2 this
      have h3 : ⌊x + 1 / 2⌋ < 1001 := by exact_mod_cast this
      omega

theorem round3_mem_unit (x : ℝ) (h0 : 0 ≤ x) (h1 : x ≤ 1) :
    0 ≤ round3 x ∧ round3 x ≤ 1 := by
  obtain ⟨hl, hr⟩ := pyRoundInt_bounds (1000 * x) (by linarith) (by linarith)
  constructor
  · exact div_nonneg (by exact_mod_cast hl) (by norm_num)
  · rw [round3, div_le_one (by norm_num)]
    exact_mod_cast hr

/-- The three-node scenario of the spec: nodes A, B, C, links
P1 = (A, B) and P2 = (B, C), every baseline pressure 52, every baseline
flow 60, no event applied yet. -/
def sC1 : HydraulicModel :=
  { loaded := true
    baseline_pressure := [("A", 52), ("B", 52), ("C", 52)]
    baseline_flow := [("P1", 60), ("P2", 60)]
    nodes := ["A", "B", "C"]
    links := [("P1", "A", "B"), ("P2", "B", "C")]
    active_leaks := []
    modified_pressures := []
    connectivity_graph := [] }

/-- A state with a node D disconnected from link P1 = (A, B), a baseline
pressure below 10 at D and a negative baseline flow on P1. -/
def sC5 : HydraulicModel :=
  { loaded := true
    baseline_pressure := [("A", 52), ("B", 52), ("D", 5)]
    baseline_flow := [("P1", -10)]
    nodes := ["A", "B", "D"]
    links := [("P1", "A", "B")]
    active_leaks := []
    modified_pressures := []
    connectivity_graph := [] }

/-- A one-node state for the demand-spike counterexample. -/
def sC8 : HydraulicModel :=
  { loaded := true
    baseline_pressure := [("A", 52)]
    baseline_flow := []
    nodes := ["A"]
    links := []
    active_leaks := []
    modified_pressures := []
    connectivity_graph := [] }

/-- A state with a node D unreachable from link P1 = (A, B) whose snapshot
still carries a stale sub-baseline pressure from an earlier event. -/
def sC10 : HydraulicModel :=
  { loaded := true
    baseline_pressure := [("A", 52), ("B", 52), ("D", 52)]
    baseline_flow := []
    nodes := ["A", "B", "D"]
    links := [("P1", "A", "B")]
    active_leaks := []
    modified_pressures := [("D", 40)]
    connectivity_graph := [] }

/-- Full evaluation of `apply_leak("P1", 1.0)` on the spec scenario. -/
theorem applyLeak_sC1_eval : applyLeak sC1 "P1" 1 =
    { loaded := true
      baseline_pressure := [("A", 52), ("B", 52), ("C", 52)]
      baseline_flow := [("P1", 243 / 13), ("P2", 1035 / 26)]
      nodes := ["A", "B", "C"]
      links := [("P1", "A", "B"), ("P2", "B", "C")]
      active_leaks := [("P1", 1)]
      modified_pressures := [("A", 27), ("B", 27), ("C", 42)]
      connectivity_graph := [("A", ["B"]), ("B", ["A", "C"]), ("C", ["B"])] } := by
  simp [applyLeak, findPipe, leakGraph, buildConnectivityGraph, bfsAux,
    calculateFlowChanges, calcFlowsFold, flowFactor, getPipeLeakFactor,
    dset, dget, dfind, dmem, graphGet, sC1]
  norm_num [max_def]

/-- Full evaluation of `apply_leak("P1", 1.0)` on the state with the
disconnected low-pressure node and the negative baseline flow. -/
theorem applyLeak_sC5_eval : applyLeak sC5 "P1" 1 =
    { loaded := true
      baseline_pressure := [("A", 52), ("B", 52), ("D", 5)]
      baseline_flow := [("P1", -81 / 26)]
      nodes := ["A", "B", "D"]
      links := [("P1", "A", "B")]
      active_leaks := [("P1", 1)]
      modified_pressures := [("A", 27), ("B", 27), ("D", 5)]
      connectivity_graph := [("A", ["B"]), ("B", ["A"]), ("D", [])] } := by
  simp [applyLeak, findPipe, leakGraph, buildConnectivityGraph, bfsAux,
    calculateFlowChanges, calcFlowsFold, flowFactor, getPipeLeakFactor,
    dset, dget, dfind, dmem, graphGet, sC5]
  norm_num [max_def]

theorem applyLeak_found (m : HydraulicModel) (pid : String) (sev : ℚ) (s t : String)
    (hfind : findPipe m.links pid = some (s, t)) :
    applyLeak m pid sev = calculateFlowChanges
      { m with active_leaks := dset m.active_leaks pid sev,
               connectivity_graph := leakGraph m,
               modified_pressures :=
                 bfsAux (leakGraph m) sev [(s, 0), (t, 0)] [] m.baseline_pressure } := by
  unfold applyLeak
  rw [hfind]

theorem applyLeak_notfound (m : HydraulicModel) (pid : String) (sev : ℚ)
    (hfind : findPipe m.links pid = none) :
    applyLeak m pid sev =
      { m with active_leaks := dset m.active_leaks pid sev,
               connectivity_graph := leakGraph m } := by
  unfold applyLeak
  rw [hfind]

/-- Claim C1: on the topology A–P1–B–P2–C with all baselines 52,
`apply_leak("P1", 1.0)` yields snapshot pressures 27, 27, 42 at A, B, C,
and `clear_leaks()` then returns all three to exactly 52. -/
theorem c1_scenario_leak_and_clear :
    dget (getModifiedPressures (applyLeak sC1 "P1" 1)) "A" 0 = 27 ∧
    dget (getModifiedPressures (applyLeak sC1 "P1" 1)) "B" 0 = 27 ∧
    dget (getModifiedPressures (applyLeak sC1 "P1" 1)) "C" 0 = 42 ∧
    dget (getModifiedPressures (clearLeaks (applyLeak sC1 "P1" 1))) "A" 0 = 52 ∧
    dget (getModifiedPressures (clearLeaks (applyLeak sC1 "P1" 1))) "B" 0 = 52 ∧
    dget (getModifiedPressures (clearLeaks (applyLeak sC1 "P1" 1))) "C" 0 = 52 := by
  rw [applyLeak_sC1_eval]
  simp [getModifiedPressures, clearLeaks, dget, dfind]

/-- Claim C2 counterexample: `HydraulicModel.apply_leak` does not clamp,
so `apply_leak(pid, 1.5)` leaves the engine in a different state than
`apply_leak(pid, 1.0)` — already the stored leak maps differ. -/
theorem c2_unclamped_severity_cex :
    (applyLeak sC1 "P1" (3 / 2)).active_leaks ≠ (applyLeak sC1 "P1" 1).active_leaks ∧
    applyLeak sC1 "P1" (3 / 2) ≠ applyLeak sC1 "P1" 1 := by
  have h1 : (applyLeak sC1 "P1" (3 / 2)).active_leaks = [("P1", 3 / 2)] := by
    simp [applyLeak, findPipe, calculateFlowChanges, sC1, dset]
  have h2 : (applyLeak sC1 "P1" 1).active_leaks = [("P1", 1)] := by
    simp [applyLeak, findPipe, calculateFlowChanges, sC1, dset]
  have hne : (applyLeak sC1 "P1" (3 / 2)).active_leaks ≠ (applyLeak sC1 "P1" 1).active_leaks := by
    rw [h1, h2]
    norm_num
  exact ⟨hne, fun he => hne (congrArg HydraulicModel.active_leaks he)⟩

/-- Claim C2 (amended): the `[0, 1]` clamp lives in
`DataSimulator.trigger_leak`, whose stored leak state for any severity
`≥ 1` equals the one for severity 1; `HydraulicModel.apply_leak` stores
(and propagates from) the raw, unclamped severity. -/
theorem c2_amended_clamp_in_simulator (pid : String) (sev : ℚ) (sim : DataSimulator)
    (m : HydraulicModel) (h : 1 ≤ sev) :
    triggerLeak sim pid sev = triggerLeak sim pid 1 ∧
    dfind (applyLeak m pid sev).active_leaks pid = some sev := by
  constructor
  · unfold triggerLeak
    rw [min_eq_right h]
    norm_num
  · cases hf : findPipe m.links pid with
    | none => rw [applyLeak_notfound m pid sev hf]; exact dfind_dset_self _ _ _
    | some st =>
      obtain ⟨s, t⟩ := st
      rw [applyLeak_found m pid sev s t hf]
      simp only [calculateFlowChanges]
      exact dfind_dset_self _ _ _

theorem c2_amended_witness :
    triggerLeak simInit "P1" (3 / 2) = triggerLeak simInit "P1" 1 ∧
    dfind (applyLeak sC1 "P1" (3 / 2)).active_leaks "P1" = some (3 / 2) :=
  c2_amended_clamp_in_simulator "P1" (3 / 2) simInit sC1 (by norm_num)

/-- Claim C3: `apply_leak` on an unknown link id raises no error, records
the severity in the leak map, and leaves the pressure snapshot and all
flows untouched. -/
theorem c3_unknown_pipe_noop (m : HydraulicModel) (pid : String) (sev : ℚ)
    (hfind : findPipe m.links pid = none) :
    (applyLeak m pid sev).modified_pressures = m.modified_pressures ∧
    (applyLeak m pid sev).baseline_flow = m.baseline_flow ∧
    getActiveLeaks (applyLeak m pid sev) = dset m.active_leaks pid sev ∧
    dfind (getActiveLeaks (applyLeak m pid sev)) pid = some sev := by
  rw [applyLeak_notfound m pid sev hfind]
  exact ⟨rfl, rfl, rfl, dfind_dset_self _ _ _⟩

theorem c3_witness :
    (applyLeak sC1 "UNKNOWN" (1 / 2)).modified_pressures = sC1.modified_pressures ∧
    (applyLeak sC1 "UNKNOWN" (1 / 2)).baseline_flow = sC1.baseline_flow ∧
    getActiveLeaks (applyLeak sC1 "UNKNOWN" (1 / 2)) = dset sC1.active_leaks "UNKNOWN" (1 / 2) ∧
    dfind (getActiveLeaks (applyLeak sC1 "UNKNOWN" (1 / 2))) "UNKNOWN" = some (1 / 2) :=
  c3_unknown_pipe_noop sC1 "UNKNOWN" (1 / 2) (by decide)

/-- Claim C4: `clear_leaks` empties the leak map and resets the snapshot
to exactly the stored baseline map, while leaving the (possibly already
overwritten) stored flows untouched — concretely, after the scenario leak
P1's stored flow stays at 243/13 ≠ 60 even after clearing. -/
theorem c4_clear_restores_pressures_not_flows (m : HydraulicModel) :
    (clearLeaks m).active_leaks = [] ∧
    (clearLeaks m).modified_pressures = m.baseline_pressure ∧
    (clearLeaks m).baseline_flow = m.baseline_flow ∧
    dget (clearLeaks (applyLeak sC1 "P1" 1)).baseline_flow "P1" 60 ≠ 60 := by
  refine ⟨rfl, rfl, rfl, ?_⟩
  rw [applyLeak_sC1_eval]
  simp [clearLeaks, dget, dfind]
  norm_num

/-- Claim C5 counterexample: the snapshot produced by `apply_leak` can
contain a pressure below 10 (a node unreachable from the leak keeps its
baseline, here 5), and a recomputed flow can be below `0.3 × baseline`
when the stored baseline flow is negative. -/
theorem c5_bounds_cex :
    dget (applyLeak sC5 "P1" 1).modified_pressures "D" 0 = 5 ∧
    dget (applyLeak sC5 "P1" 1).modified_pressures "D" 0 < 10 ∧
    dget (applyLeak sC5 "P1" 1).baseline_flow "P1" 60
      < 0.3 * dget sC5.baseline_flow "P1" 60 := by
  rw [applyLeak_sC5_eval]
  simp [dget, dfind, sC5]
  norm_num

/-- Claim C5 (amended): on a known link, every pressure written by the BFS
pass is at least 10, so when every stored baseline pressure is at least 10
the whole snapshot produced by `apply_leak` is; and every recomputed flow
is at least `0.3 ×` the flow stored at computation time whenever that
stored flow is nonnegative (link ids assumed pairwise distinct). -/
theorem c5_amended_bounds (m : HydraulicModel) (pid : String) (sev : ℚ) (s t : String)
    (hfind : findPipe m.links pid = some (s, t))
    (hnd : (m.links.map fun l => l.1).Nodup)
    (hbase : ∀ q ∈ m.baseline_pressure, (10 : ℚ) ≤ q.2) :
    (∀ q ∈ (applyLeak m pid sev).modified_pressures, (10 : ℚ) ≤ q.2) ∧
    (∀ l ∈ m.links, 0 ≤ dget m.baseline_flow l.1 60 →
      0.3 * dget m.baseline_flow l.1 60 ≤ dget (applyLeak m pid sev).baseline_flow l.1 60) := by
  rw [applyLeak_found m pid sev s t hfind]
  simp only [calculateFlowChanges]
  constructor
  · exact bfsAux_ge_ten (leakGraph m) sev [(s, 0), (t, 0)] [] m.baseline_pressure hbase
  · intro l hl hpos
    rw [calcFlowsFold_spec _ _ _ _ hnd l hl]
    calc 0.3 * dget m.baseline_flow l.1 60 = dget m.baseline_flow l.1 60 * 0.3 := mul_comm _ _
      _ ≤ dget m.baseline_flow l.1 60 * flowFactor _ _ l.1 l.2.1 l.2.2 :=
        mul_le_mul_of_nonneg_left (le_max_left _ _) hpos

theorem c5_amended_witness :
    (10 : ℚ) ≤ dget (applyLeak sC1 "P1" 1).modified_pressures "A" 0 ∧
    0.3 * dget sC1.baseline_flow "P1" 60 ≤ dget (applyLeak sC1 "P1" 1).baseline_flow "P1" 60 := by
  have h := c5_amended_bounds sC1 "P1" 1 "A" "B" (by decide) (by decide)
    (by norm_num [sC1, List.forall_mem_cons])
  constructor
  · have hmem : ("A", (27 : ℚ)) ∈ (applyLeak sC1 "P1" 1).modified_pressures := by
      rw [applyLeak_sC1_eval]
      exact List.mem_cons_self _ _
    have h27 := h.1 ("A", 27) hmem
    rw [applyLeak_sC1_eval]
    simpa [dget, dfind] using h27
  · exact h.2 ("P1", "A", "B") (by decide) (by simp [sC1, dget, dfind])

/-- Claim C6: after the BFS pass of `apply_leak` on a known link, every
link's stored flow is overwritten in place with
`stored_flow × max 0.3 (avg(p_src, p_tgt) / 52 × (1 − leak_factor))`,
where the pressures come from the new snapshot (default 52) and the leak
factor from the post-store leak map; the base of the product is the flow
stored at call time — the overwritten value, not the original baseline —
so repeated calls compound (link ids assumed pairwise distinct). -/
theorem c6_flow_recompute_formula (m : HydraulicModel) (pid : String) (sev : ℚ) (s t : String)
    (hfind : findPipe m.links pid = some (s, t))
    (hnd : (m.links.map fun l => l.1).Nodup) :
    ∀ l ∈ m.links,
      dget (applyLeak m pid sev).baseline_flow l.1 60
        = dget m.baseline_flow l.1 60 *
          max 0.3 ((dget (applyLeak m pid sev).modified_pressures l.2.1 52
              + dget (applyLeak m pid sev).modified_pressures l.2.2 52) / 2 / 52
            * (1 - getPipeLeakFactor (dset m.active_leaks pid sev) l.1)) := by
  intro l hl
  rw [applyLeak_found m pid sev s t hfind]
  simp only [calculateFlowChanges]
  simpa only [flowFactor] using calcFlowsFold_spec _ _ _ _ hnd l hl

theorem c6_witness :
    dget (applyLeak sC1 "P1" 1).baseline_flow "P1" 60
      = dget sC1.baseline_flow "P1" 60 *
        max 0.3 ((dget (applyLeak sC1 "P1" 1).modified_pressures "A" 52
            + dget (applyLeak sC1 "P1" 1).modified_pressures "B" 52) / 2 / 52
          * (1 - getPipeLeakFactor (dset sC1.active_leaks "P1" 1) "P1")) :=
  c6_flow_recompute_formula sC1 "P1" 1 "A" "B" (by decide) (by decide)
    ("P1", "A", "B") (by decide)

/-- Claim C10: after `apply_leak` on a known link, every node not
reachable (in the connectivity graph the call uses) from either endpoint
carries exactly its stored baseline binding in the new snapshot — stale
reductions on such nodes are discarded, and only reachable nodes can
differ from baseline. -/
theorem c10_frame_unreachable (m : HydraulicModel) (pid : String) (sev : ℚ) (s t : String)
    (hfind : findPipe m.links pid = some (s, t)) (n : String)
    (hns : ¬ reachable (leakGraph m) s n) (hnt : ¬ reachable (leakGraph m) t n) :
    dfind (applyLeak m pid sev).modified_pressures n = dfind m.baseline_pressure n := by
  rw [applyLeak_found m pid sev s t hfind]
  simp only [calculateFlowChanges]
  refine bfsAux_frame (leakGraph m) sev
    (fun x => reachable (leakGraph m) s x ∨ reachable (leakGraph m) t x) ?_
    [(s, 0), (t, 0)] [] m.baseline_pressure ?_ n ?_
  · intro a ha b hb
    rcases ha with h | h
    · exact Or.inl (h.tail hb)
    · exact Or.inr (h.tail hb)
  · intro q hq
    rcases List.mem_cons.mp hq with rfl | hq
    · exact Or.inl Relation.ReflTransGen.refl
    · rcases List.mem_cons.mp hq with rfl | hq
      · exact Or.inr Relation.ReflTransGen.refl
      · cases hq
  · rintro (h | h)
    · exact hns h
    · exact hnt h

theorem c10_witness :
    dfind (applyLeak sC10 "P1" (1 / 2)).modified_pressures "D"
      = dfind sC10.baseline_pressure "D" := by
  have hcl : ∀ a ∈ (["A", "B"] : List String), ∀ b ∈ graphGet (leakGraph sC10) a,
      b ∈ (["A", "B"] : List String) := by decide
  have hA : ¬ reachable (leakGraph sC10) "A" "D" := fun h =>
    absurd (reachable_mem_closed _ _ hcl "A" (by decide) "D" h) (by decide)
  have hB : ¬ reachable (leakGraph sC10) "B" "D" := fun h =>
    absurd (reachable_mem_closed _ _ hcl "B" (by decide) "D" h) (by decide)
  exact c10_frame_unreachable sC10 "P1" (1 / 2) "A" "B" (by decide) "D" hA hB

/-- Claim C7: for any detector state (hence after any finite sequence of
calls) and any sample dict, the fused score equals
`round3 (0.6 × z-indicator + 0.4 × spectral-indicator)` with each
indicator clamped at 1, and the returned score lies in `[0, 1]`. -/
theorem c7_score_formula_and_bounds (det : AnomalyDetector) (sensors : Dict ℝ) :
    (score det sensors).2
      = round3 (0.6 * min 1 (zScoreRaw
            (dequePush det.window_size det.pressure_buf (dget sensors "P1" 0))
            (dget sensors "P1" 0) / 3)
        + 0.4 * min 1 (fftEnergyOf
            (dequePush det.window_size det.acoustic_buf (dget sensors "A1" 0))
          / (fftEnergyOf (dequePush det.window_size det.acoustic_buf (dget sensors "A1" 0)) + 5))) ∧
    min 1 (zScoreRaw (dequePush det.window_size det.pressure_buf (dget sensors "P1" 0))
        (dget sensors "P1" 0) / 3) ≤ 1 ∧
    min 1 (fftEnergyOf (dequePush det.window_size det.acoustic_buf (dget sensors "A1" 0))
        / (fftEnergyOf (dequePush det.window_size det.acoustic_buf (dget sensors "A1" 0)) + 5)) ≤ 1 ∧
    0 ≤ (score det sensors).2 ∧ (score det sensors).2 ≤ 1 := by
  have hz0 : 0 ≤ zScoreRaw (dequePush det.window_size det.pressure_buf (dget sensors "P1" 0))
      (dget sensors "P1" 0) := zScoreRaw_nonneg _ _
  have hE0 : 0 ≤ fftEnergyOf (dequePush det.window_size det.acoustic_buf (dget sensors "A1" 0)) :=
    fftEnergyOf_nonneg _
  set z := zScoreRaw (dequePush det.window_size det.pressure_buf (dget sensors "P1" 0))
    (dget sensors "P1" 0) with hzdef
  set E := fftEnergyOf (dequePush det.window_size det.acoustic_buf (dget sensors "A1" 0)) with hEdef
  have hzn0 : 0 ≤ min 1 (z / 3) := le_min (by norm_num) (by positivity)
  have hzn1 : min 1 (z / 3) ≤ 1 := min_le_left _ _
  have han0 : 0 ≤ min 1 (E / (E + 5)) :=
    le_min (by norm_num) (div_nonneg hE0 (by linarith))
  have han1 : min 1 (E / (E + 5)) ≤ 1 := min_le_left _ _
  have hraw0 : 0 ≤ 0.6 * min 1 (z / 3) + 0.4 * min 1 (E / (E + 5)) := by
    have := mul_nonneg (by norm_num : (0:ℝ) ≤ 0.6) hzn0
    have := mul_nonneg (by norm_num : (0:ℝ) ≤ 0.4) han0
    linarith
  have hraw1 : 0.6 * min 1 (z / 3) + 0.4 * min 1 (E / (E + 5)) ≤ 1 := by
    have h1 := mul_le_mul_of_nonneg_left hzn1 (by norm_num : (0:ℝ) ≤ 0.6)
    have h2 := mul_le_mul_of_nonneg_left han1 (by norm_num : (0:ℝ) ≤ 0.4)
    linarith
  have hscore : (score det sensors).2
      = round3 (0.6 * min 1 (z / 3) + 0.4 * min 1 (E / (E + 5))) := rfl
  obtain ⟨hb0, hb1⟩ := round3_mem_unit _ hraw0 hraw1
  exact ⟨hscore, hzn1, han1, hscore ▸ hb0, hscore ▸ hb1⟩

/-- Claim C8 counterexample: `HydraulicModel.apply_demand_spike` uses the
raw multiplier, so multiplier 0.0 scales 52 to 54.6 while 0.1 scales it
to 54.34 — the two calls do not behave identically. -/
theorem c8_demand_spike_unclamped_cex :
    dget (applyDemandSpike sC8 0 600).modified_pressures "A" 0 = 273 / 5 ∧
    dget (applyDemandSpike sC8 (1 / 10) 600).modified_pressures "A" 0 = 2717 / 50 ∧
    applyDemandSpike sC8 0 600 ≠ applyDemandSpike sC8 (1 / 10) 600 := by
  have h1 : dget (applyDemandSpike sC8 0 600).modified_pressures "A" 0 = 273 / 5 := by
    simp [applyDemandSpike, sC8, dget, dfind]
    norm_num [max_def]
  have h2 : dget (applyDemandSpike sC8 (1 / 10) 600).modified_pressures "A" 0 = 2717 / 50 := by
    simp [applyDemandSpike, sC8, dget, dfind]
    norm_num [max_def]
  refine ⟨h1, h2, fun he => ?_⟩
  have := congrArg (fun m => dget m.modified_pressures "A" (0 : ℚ)) he
  simp only at this
  rw [h1, h2] at this
  norm_num at this

/-- Claim C8 (amended): `HydraulicModel.apply_demand_spike` replaces the
whole snapshot (discarding leak effects) with
`baseline × max 0.7 (1 − 0.05 × (multiplier − 1))` per node using the
unclamped multiplier; the `≥ 0.1` clamp and the `now + max 1 duration`
expiry live in `DataSimulator.trigger_demand_spike`, where multiplier 0.0
and 0.1 do coincide. -/
theorem c8_amended_demand_spike (m : HydraulicModel) (multiplier : ℚ) (duration_s : ℤ)
    (n : String) (sim : DataSimulator) (d2 now : ℤ) :
    dfind (applyDemandSpike m multiplier duration_s).modified_pressures n
      = (dfind m.baseline_pressure n).map (fun p => p * max 0.7 (1 - 0.05 * (multiplier - 1))) ∧
    (applyDemandSpike m multiplier duration_s).active_leaks = m.active_leaks ∧
    (applyDemandSpike m multiplier duration_s).baseline_pressure = m.baseline_pressure ∧
    triggerDemandSpike sim 0 d2 now = triggerDemandSpike sim (1 / 10) d2 now ∧
    (triggerDemandSpike sim multiplier d2 now).demand_multiplier = max 0.1 multiplier ∧
    (triggerDemandSpike sim multiplier d2 now).demand_until_ts = now + max 1 d2 := by
  refine ⟨?_, rfl, rfl, ?_, rfl, rfl⟩
  · show dfind (m.baseline_pressure.map fun p =>
        (p.1, p.2 * max 0.7 (1 - 0.05 * (multiplier - 1)))) n = _
    exact dfind_map_value m.baseline_pressure
      (fun v => v * max 0.7 (1 - 0.05 * (multiplier - 1))) n
  · unfold triggerDemandSpike
    norm_num [max_def]

/-- Claim C9: `load` is total on every input: whatever the optional
external-solver outcome and whatever the file contents (including an
unreadable file, modelled as `none`, and a file with no recognizable
sections), it completes, leaves the node/link lists empty for the
degenerate inputs, and `is_ready()` is true afterwards. -/
theorem c9_load_total_always_ready (w : Option (Dict ℚ × Dict ℚ)) (inp : Option (List String)) :
    isReady (hydLoad w inp) = true ∧
    (hydLoad w none).nodes = [] ∧
    (hydLoad w none).links = [] ∧
    parseInp (some ["certainly not an INP file", "@@ garbage @@", "12345"]) = ([], []) := by
  refine ⟨rfl, rfl, rfl, ?_⟩
  decide
